import Mathlib

/-!
XML::Reader — `ext/libxml/ruby_xml_reader.c`

A shallow embedding of the Ruby binding of the libxml2 pull reader.

* The wrapper functions (`ruby_xml_reader_*`, `CSTR2RVAL`, `RVAL2CSTR`,
  `__rb_str_new_and_free`) are transcribed from the C source.
* The Ruby C API they use (`TYPE`, `FIX2INT`, `INT2FIX`, `StringValueCStr`,
  `rb_str_new2`, `rb_scan_args`, `Data_Wrap_Struct`, ...) is modelled for
  Ruby 1.8 on an LP64 machine (`int` 32 bits, `long` and `VALUE` 64 bits).
* The libxml2 reader (`xmlTextReader*`) is external to the repository; its
  traversal functions are modelled from the specification, its factories
  (`xmlReaderFor*`) are parameters. So are `xmlTextReaderNextSibling` and,
  where a statement depends on what the engine answers for an index or on the
  reader it leaves, the attribute lookups (`AttributeLookup`).

A raised Ruby exception is the `Except.error` arm of `Result`.
-/

namespace LibxmlRuby

/-! ## C strings and machine integers -/

/-- A byte buffer; a NUL byte is `0`. -/
abbrev Bytes := List Nat

/-- The text of a C string: the bytes of the buffer before its first NUL. -/
def cText (buf : Bytes) : Bytes := buf.takeWhile (fun b => b != 0)

/-- C `strlen`. -/
def strlen (buf : Bytes) : Nat := (cText buf).length

def INT_MIN : Int := -(2 ^ 31)

def INT_MAX : Int := 2 ^ 31 - 1

/-- Conversion of an integer to a C `int` (two's complement, 32 bits). -/
def toCInt (n : Int) : Int := (n + 2 ^ 31) % 2 ^ 32 - 2 ^ 31

/-- Largest Fixnum of a 64-bit `VALUE`. -/
def FIXNUM_MAX : Int := 2 ^ 62 - 1

def FIXNUM_MIN : Int := -(2 ^ 62)

/-! ## The libxml2 side: documents and the reader struct -/

/-- A node record of a parsed document, as the tree API sees it. -/
structure xmlNode where
  name : Bytes
  content : Option Bytes
  properties : List (Bytes × Bytes)
  children : List Nat
deriving DecidableEq, Repr

/-- Modelled from the spec: the parsed-document backing store of a reader
(section 3, "MaterializedSubtree", section 4.4). `nodes` is the heap of the
document, address to node record; `owners` counts the Ruby document wrappers
that are responsible for releasing the store (`_private` is set exactly when
there is one). -/
structure xmlDoc where
  nodes : List (Nat × xmlNode)
  owners : Nat
deriving DecidableEq, Repr

/-- Modelled from the spec: the node view of section 3, the data the engine
exposes for the current node. `addr` is the address of the node in the backing
document, `attributes` the (qualified name, value) pairs in document order,
`nsScope` the namespace bindings visible at the node, nearest declaration
first, with the default namespace under the absent prefix, and `subtree` what
the engine materializes when the node is expanded: the record of the node and
the records of its descendants with their addresses, absent when it cannot
produce the subtree. `isEmptyElement`, `isDefaultAttribute` and
`isNamespaceDeclaration` are the booleans of that section; `hasAttributes` and
`hasValue` are read off `attributes` and `value`. -/
structure NodeView where
  addr : Nat
  type : Int
  depth : Int
  name : Option Bytes
  localName : Option Bytes
  nsPrefix : Option Bytes
  namespaceUri : Option Bytes
  value : Option Bytes
  attributes : List (Bytes × Bytes)
  nsScope : List (Option Bytes × Bytes)
  subtree : Option (xmlNode × List (Nat × xmlNode))
  isEmptyElement : Bool := false
  isDefaultAttribute : Bool := false
  isNamespaceDeclaration : Bool := false
deriving DecidableEq, Repr

/-- The read states of section 6, with the integer identities of
`xmlTextReaderMode`. -/
inductive xmlTextReaderMode where
  | XML_TEXTREADER_MODE_INITIAL
  | XML_TEXTREADER_MODE_INTERACTIVE
  | XML_TEXTREADER_MODE_ERROR
  | XML_TEXTREADER_MODE_EOF
  | XML_TEXTREADER_MODE_CLOSED
  | XML_TEXTREADER_MODE_READING
deriving DecidableEq, Repr

/-- Modelled from the spec: the Reader of section 3. `input` is what the
external parse engine will deliver on the coming advances: `some v` a next
node, `none` a failure. `preserve` is `preserveRequested`. `walker` tells a
reader constructed over a pre-parsed document (section 6), and `validator` is
the last-known validity status of the attached validator, absent when none is
attached. -/
structure xmlTextReader where
  mode : xmlTextReaderMode
  node : Option NodeView
  input : List (Option NodeView)
  preserve : Bool
  doc : xmlDoc
  walker : Bool := false
  validator : Option Bool := none
deriving DecidableEq, Repr

/-- Modelled from the spec: what the Reader does to its backing store "on
close or on internal reuse" (section 4.4): it destroys it, unless
`preserveRequested`. -/
def releaseStore (r : xmlTextReader) : xmlDoc :=
  if r.preserve then r.doc else { r.doc with nodes := [] }

/-- Modelled from the spec: `advance()` of section 4.1. Returns 1 (Advanced),
0 (NoMoreNodes) or -1 (Failed). A closed or failed reader reports an error;
an advance reuses the backing store unless it is preserved (the subtree of
`xmlTextReaderExpand` is "available until the next read call"). -/
def xmlTextReaderRead (r : xmlTextReader) : Int × xmlTextReader :=
  match r.mode with
  | .XML_TEXTREADER_MODE_CLOSED => (-1, r)
  | .XML_TEXTREADER_MODE_ERROR => (-1, r)
  | _ =>
    match r.input with
    | [] => (0, { r with mode := .XML_TEXTREADER_MODE_EOF })
    | none :: rest =>
      (-1, { r with mode := .XML_TEXTREADER_MODE_ERROR, input := rest })
    | some v :: rest =>
      (1, { r with mode := .XML_TEXTREADER_MODE_INTERACTIVE, node := some v,
                   input := rest, doc := releaseStore r })

/-- Modelled from the spec: `close()` of section 4.1: releases the engine
connection, returns a status code, and destroys the backing store unless
ownership was transferred. -/
def xmlTextReaderClose (r : xmlTextReader) : Int × xmlTextReader :=
  (0, { r with mode := .XML_TEXTREADER_MODE_CLOSED, node := none, input := [],
               doc := releaseStore r })

/-- Modelled from the spec: destruction of the Reader (section 3,
"Lifecycle"): "unless ownership was transferred", it releases the backing
store. The result is what remains of the store once the reader is gone. -/
def xmlFreeTextReader (r : xmlTextReader) : xmlDoc :=
  releaseStore r

/-- Modelled from the spec: the engine primitive behind `expand()` (section
4.4): absent when there is no current node or the engine cannot produce the
subtree (an engine failure puts the reader in `Error`); otherwise the subtree
is parsed into the backing store, if not already available, and the address of
its root is returned. -/
def xmlTextReaderExpand (r : xmlTextReader) : Option Nat × xmlTextReader :=
  match r.node with
  | none => (none, r)
  | some v =>
    match v.subtree with
    | none => (none, { r with mode := .XML_TEXTREADER_MODE_ERROR })
    | some (root, below) =>
      if (r.doc.nodes.lookup v.addr).isSome then (some v.addr, r)
      else (some v.addr,
            { r with doc := { r.doc with nodes := r.doc.nodes ++ (v.addr, root) :: below } })

/-- Modelled from the spec: marks the backing store `preserveRequested`
(section 3); the flag is never cleared. -/
def xmlTextReaderPreserve (r : xmlTextReader) : xmlTextReader :=
  { r with preserve := true }

/-- Modelled from the spec: the backing parsed-document store of the
Reader. -/
def xmlTextReaderCurrentDoc (r : xmlTextReader) : xmlDoc :=
  r.doc

/-- Modelled from the spec: `attributeCount` of section 3. -/
def xmlTextReaderAttributeCount (r : xmlTextReader) : Int :=
  match r.node with
  | none => 0
  | some v => v.attributes.length

/-- Modelled from the spec: `attribute(key)` by index (section 4.2): the value
of the attribute at the zero-based index, absent when there is no current
node or the index is out of range. This is the rule of the spec; the
statements on what `reader[index]` gives for an index below zero or beyond the
attributes do not go through it but take the lookup as a parameter
(`AttributeLookup`). -/
def xmlTextReaderGetAttributeNo (r : xmlTextReader) (no : Int) : Option Bytes :=
  match r.node with
  | none => none
  | some v => if no < 0 then none else (v.attributes.get? no.toNat).map Prod.snd

/-- Modelled from the spec: `attribute(key)` by qualified name (section 4.2):
absent when there is no current node or the name is not found. -/
def xmlTextReaderGetAttribute (r : xmlTextReader) (name : Bytes) : Option Bytes :=
  match r.node with
  | none => none
  | some v => v.attributes.lookup (cText name)

/-- Modelled from the spec: `lookupNamespace(prefix)` of section 4.3: the
nearest binding in the scope chain of the current position; an absent or empty
prefix resolves the default namespace; absent when no declaration is in
scope. -/
def xmlTextReaderLookupNamespace (r : xmlTextReader) (pfx : Option Bytes) : Option Bytes :=
  match r.node with
  | none => none
  | some v =>
    match pfx with
    | none => v.nsScope.lookup none
    | some p => if cText p = [] then v.nsScope.lookup none else v.nsScope.lookup (some (cText p))

/-- Modelled from the spec: `hasAttributes` of section 3, as the int code of
the engine: 1 when the property holds, 0 when it does not; without a current
node there are no attributes. -/
def xmlTextReaderHasAttributes (r : xmlTextReader) : Int :=
  match r.node with
  | none => 0
  | some v => if v.attributes.isEmpty then 0 else 1

/-- Modelled from the spec: `hasValue` of section 3, as the int code of the
engine. -/
def xmlTextReaderHasValue (r : xmlTextReader) : Int :=
  match r.node with
  | none => 0
  | some v => if v.value.isSome then 1 else 0

/-- Modelled from the spec: `isDefaultAttribute` of section 3, as the int code
of the engine. -/
def xmlTextReaderIsDefault (r : xmlTextReader) : Int :=
  match r.node with
  | none => 0
  | some v => if v.isDefaultAttribute then 1 else 0

/-- Modelled from the spec: `isNamespaceDeclaration` of section 3, as the int
code of the engine: 1 or 0 for the current node, and -1, the error code, when
there is no current node to examine (before the first advance, after a
close). -/
def xmlTextReaderIsNamespaceDecl (r : xmlTextReader) : Int :=
  match r.node with
  | none => -1
  | some v => if v.isNamespaceDeclaration then 1 else 0

/-- Modelled from the spec: `isEmptyElement` of section 3, as the int code of
the engine: 1 or 0 for the current node, and -1, the error code, when there is
no current node to examine. -/
def xmlTextReaderIsEmptyElement (r : xmlTextReader) : Int :=
  match r.node with
  | none => -1
  | some v => if v.isEmptyElement then 1 else 0

/-- Modelled from the spec: `isValid()` of section 4.1: the last-known validity
status from the attached validator, 0 when no validator is attached. -/
def xmlTextReaderIsValid (r : xmlTextReader) : Int :=
  match r.validator with
  | none => 0
  | some b => if b then 1 else 0

/-- Modelled from the spec: `name()`, a pure query over the node view. -/
def xmlTextReaderConstName (r : xmlTextReader) : Option Bytes :=
  r.node.bind NodeView.name

/-- Modelled from the spec: `localName()`. -/
def xmlTextReaderConstLocalName (r : xmlTextReader) : Option Bytes :=
  r.node.bind NodeView.localName

/-- Modelled from the spec: `prefix()`. -/
def xmlTextReaderConstPrefix (r : xmlTextReader) : Option Bytes :=
  r.node.bind NodeView.nsPrefix

/-- Modelled from the spec: `namespaceUri()`. -/
def xmlTextReaderConstNamespaceUri (r : xmlTextReader) : Option Bytes :=
  r.node.bind NodeView.namespaceUri

/-- Modelled from the spec: `value()`. -/
def xmlTextReaderConstValue (r : xmlTextReader) : Option Bytes :=
  r.node.bind NodeView.value

/-! ## The Ruby side: values and the C API (Ruby 1.8, LP64) -/

/-- The exception classes the wrapper can raise, directly or through the
C API. -/
inductive ExcClass where
  | rb_eTypeError
  | rb_eArgError
  | rb_eRangeError
  | rb_eRuntimeError
  | rb_eIOError
deriving DecidableEq, Repr

/-- A raised exception: `rb_raise(klass, msg)`. -/
structure RubyError where
  klass : ExcClass
  msg : String
deriving DecidableEq, Repr

/-- The outcome of a C function that may `rb_raise`. -/
abbrev Result (α : Type) := Except RubyError α

def rb_raise {α : Type} (klass : ExcClass) (msg : String) : Result α :=
  Except.error { klass := klass, msg := msg }

/-- Ruby classes that occur in the binding. -/
inductive Klass where
  | cXMLReader
  | cXMLDocument
  | cXMLNode
  | subclass (id : Nat)
deriving DecidableEq, Repr

/-- The `dfree` functions given to `Data_Wrap_Struct`. -/
inductive FreeFn where
  | xmlFreeTextReader
  | ruby_xml_document_free
  | ruby_xml_node_free
deriving DecidableEq, Repr

/-- The C pointer held by a `T_DATA` object. -/
inductive Ptr where
  | reader (r : xmlTextReader)
  | doc (d : xmlDoc)
  | node (addr : Nat)
deriving DecidableEq, Repr

/-- Ruby 1.8 `OpenFile`: `f` the primary stdio handle, `f2` the write handle of
a duplex stream, `mode` the `FMODE_*` bits. -/
structure OpenFile where
  f : Option Nat
  f2 : Option Nat
  mode : Nat
deriving DecidableEq, Repr

/-- A Ruby `VALUE`. `object` stands for every object of another type;
`to_str` is what its `to_str` method returns when it has one. -/
inductive VALUE where
  | Qnil
  | Qtrue
  | Qfalse
  | fixnum (n : Int)
  | bignum (n : Int)
  | string (bytes : Bytes)
  | file (fptr : Option OpenFile)
  | data (klass : Klass) (dfree : Option FreeFn) (ptr : Ptr)
  | object (to_str : Option Bytes)
deriving DecidableEq, Repr

/-- The type tags `TYPE(x)` can return. -/
inductive RubyType where
  | T_NIL
  | T_TRUE
  | T_FALSE
  | T_FIXNUM
  | T_BIGNUM
  | T_STRING
  | T_FILE
  | T_DATA
  | T_OBJECT
deriving DecidableEq, Repr

def TYPE : VALUE → RubyType
  | .Qnil => .T_NIL
  | .Qtrue => .T_TRUE
  | .Qfalse => .T_FALSE
  | .fixnum _ => .T_FIXNUM
  | .bignum _ => .T_BIGNUM
  | .string _ => .T_STRING
  | .file _ => .T_FILE
  | .data _ _ _ => .T_DATA
  | .object _ => .T_OBJECT

def NIL_P : VALUE → Bool
  | .Qnil => true
  | _ => false

/-- `INT2FIX` of a C `int`: every `int` is a Fixnum of a 64-bit `VALUE`. -/
def INT2FIX (i : Int) : VALUE := .fixnum i

/-- `FIX2INT` where `int` is narrower than `long` is `rb_fix2int`: a Fixnum is
range-checked against `int`; a Bignum is out of range; anything else has no
integer conversion. -/
def FIX2INT : VALUE → Result Int
  | .fixnum n =>
    if INT_MIN ≤ n ∧ n ≤ INT_MAX then pure n
    else rb_raise .rb_eRangeError "integer too big to convert to int"
  | .bignum _ => rb_raise .rb_eRangeError "bignum too big to convert to int"
  | _ => rb_raise .rb_eTypeError "no implicit conversion to integer"

/-- `rb_string_value`: a String is taken as it is, another object is converted
with `to_str`, and a `TypeError` is raised when it has no such conversion. -/
def rb_string_value : VALUE → Result Bytes
  | .string s => pure s
  | .object (some s) => pure s
  | _ => rb_raise .rb_eTypeError "cannot convert into String"

/-- `StringValueCStr` (`rb_string_value_cstr`): the `char *` of the string,
after checking that its length is its `strlen`. -/
def StringValueCStr (x : VALUE) : Result Bytes := do
  let s ← rb_string_value x
  if s.length ≠ strlen s then rb_raise .rb_eArgError "string contains null byte"
  else pure s

/-- `rb_str_new2`: a new String of the `strlen` bytes at `ptr`; a NULL pointer
is an `ArgumentError`. -/
def rb_str_new2 : Option Bytes → Result VALUE
  | none => rb_raise .rb_eArgError "NULL pointer given"
  | some buf => pure (.string (buf.take (strlen buf)))

/-- `rb_scan_args(argc, argv, "12", ...)`: one mandatory and two optional
arguments, the missing ones set to `nil`. -/
def rb_scan_args_12 : List VALUE → Result (VALUE × VALUE × VALUE)
  | [a] => pure (a, .Qnil, .Qnil)
  | [a, b] => pure (a, b, .Qnil)
  | [a, b, c] => pure (a, b, c)
  | _ => rb_raise .rb_eArgError "wrong number of arguments"

/-- `rb_scan_args(argc, argv, "13", ...)`. -/
def rb_scan_args_13 : List VALUE → Result (VALUE × VALUE × VALUE × VALUE)
  | [a] => pure (a, .Qnil, .Qnil, .Qnil)
  | [a, b] => pure (a, b, .Qnil, .Qnil)
  | [a, b, c] => pure (a, b, c, .Qnil)
  | [a, b, c, d] => pure (a, b, c, d)
  | _ => rb_raise .rb_eArgError "wrong number of arguments"

/-- `Data_Get_Struct`: `Check_Type(obj, T_DATA)`, then the data pointer. -/
def Data_Get_Struct : VALUE → Result Ptr
  | .data _ _ ptr => pure ptr
  | _ => rb_raise .rb_eTypeError "wrong argument type (expected Data)"

def rb_obj_is_kind_of_io : VALUE → Bool
  | .file _ => true
  | _ => false

def FMODE_READABLE : Nat := 1

/-- `GetOpenFile`: the `OpenFile` of an IO object, after `rb_io_check_closed`. -/
def GetOpenFile : VALUE → Result OpenFile
  | .file (some fptr) =>
    if fptr.f.isNone && fptr.f2.isNone then rb_raise .rb_eIOError "closed stream"
    else pure fptr
  | _ => rb_raise .rb_eIOError "uninitialized stream"

def rb_io_check_readable (fptr : OpenFile) : Result Unit :=
  if fptr.f.isNone && fptr.f2.isNone then rb_raise .rb_eIOError "closed stream"
  else if fptr.mode &&& FMODE_READABLE = 0 then rb_raise .rb_eIOError "not opened for reading"
  else pure ()

/-- `GetReadFile(fptr)` is `fptr->f`. -/
def GetReadFile (fptr : OpenFile) : Option Nat := fptr.f

/-- `GetWriteFile(fptr)` is `fptr->f2 ? fptr->f2 : fptr->f`. -/
def GetWriteFile (fptr : OpenFile) : Option Nat :=
  match fptr.f2 with
  | some w => some w
  | none => fptr.f

/-- The libxml2 reader factories: input-source acquisition and the parser
behind it are external (section 1), so they are parameters. Each returns the
new reader, or nothing (NULL) when it cannot create one. -/
structure Engine where
  xmlReaderForFile : Bytes → Option Bytes → Int → Option xmlTextReader
  xmlReaderForIO : Option Nat → Option Bytes → Option Bytes → Int → Option xmlTextReader
  xmlReaderWalker : Ptr → Option xmlTextReader
  xmlReaderForMemory : Bytes → Int → Option Bytes → Option Bytes → Int → Option xmlTextReader

/-! ## The binding: `ruby_xml_reader.c` -/

/-- `#define CSTR2RVAL(x) (x == NULL ? Qnil : rb_str_new2((const char *)x))`;
the argument of the macro is evaluated at both occurrences. -/
def CSTR2RVAL (x : Unit → Option Bytes) : Result VALUE :=
  if (x ()).isNone then pure .Qnil else rb_str_new2 (x ())

/-- `#define RVAL2CSTR(x) (StringValueCStr(x))`. -/
def RVAL2CSTR (x : VALUE) : Result Bytes := StringValueCStr x

/-- `__rb_str_new_and_free`; `CSTR2RVAL2(x)` is this function. The `xmlFree` of
the buffer has no effect on the values of the model. -/
def __rb_str_new_and_free (x : Option Bytes) : Result VALUE :=
  match x with
  | some buf => do
    let v ← rb_str_new2 (some buf)
    pure v
  | none => pure .Qnil

def CSTR2RVAL2 (x : Option Bytes) : Result VALUE := __rb_str_new_and_free x

/-- `ruby_xml_reader_new`: `Data_Wrap_Struct(class, NULL, xmlFreeTextReader, reader)`. -/
def ruby_xml_reader_new (klass : Klass) (reader : xmlTextReader) : VALUE :=
  .data klass (some .xmlFreeTextReader) (.reader reader)

/-- `ruby_xml_text_reader_get`: the reader struct a Reader object wraps. The
instance methods below take that struct as `reader`. -/
def ruby_xml_text_reader_get (obj : VALUE) : Result Ptr := Data_Get_Struct obj

/-- `NIL_P(x) ? NULL : RVAL2CSTR(x)`. -/
def optCStr (x : VALUE) : Result (Option Bytes) :=
  if NIL_P x then pure none else do
    let s ← RVAL2CSTR x
    pure (some s)

/-- `NIL_P(options) ? 0 : FIX2INT(options)`. -/
def optInt (options : VALUE) : Result Int :=
  if NIL_P options then pure 0 else FIX2INT options

/-- `XML::Reader.file(path, encoding=nil, options=0)`. -/
def ruby_xml_reader_new_file (E : Engine) (argv : List VALUE) (self : Klass) : Result VALUE := do
  let (path, encoding, options) ← rb_scan_args_12 argv
  let c_path ← RVAL2CSTR path
  let c_encoding ← optCStr encoding
  let c_options ← optInt options
  match E.xmlReaderForFile c_path c_encoding c_options with
  | none =>
    let _ ← RVAL2CSTR path
    rb_raise .rb_eRuntimeError "cannot create text reader for given XML file at path"
  | some reader => pure (ruby_xml_reader_new self reader)

/-- `XML::Reader.io(io, url=nil, encoding=nil, options=0)`, not on Windows. -/
def ruby_xml_reader_new_io (E : Engine) (argv : List VALUE) (self : Klass) : Result VALUE := do
  let (io, url, encoding, options) ← rb_scan_args_13 argv
  if ! rb_obj_is_kind_of_io io then rb_raise .rb_eTypeError "need an IO object"
  else do
    let fptr ← GetOpenFile io
    rb_io_check_readable fptr
    let f := GetWriteFile fptr
    let c_url ← optCStr url
    let c_encoding ← optCStr encoding
    let c_options ← optInt options
    match E.xmlReaderForIO f c_url c_encoding c_options with
    | none => rb_raise .rb_eRuntimeError "cannot create text reader for given stream"
    | some reader => pure (ruby_xml_reader_new self reader)

/-- `XML::Reader.walker(doc)`, also `XML::Reader.document(doc)`. -/
def ruby_xml_reader_new_walker (E : Engine) (self : Klass) (doc : VALUE) : Result VALUE := do
  let xdoc ← Data_Get_Struct doc
  match E.xmlReaderWalker xdoc with
  | none => rb_raise .rb_eRuntimeError "cannot create text reader for given document"
  | some reader => pure (ruby_xml_reader_new self reader)

/-- `XML::Reader.new(data, url=nil, encoding=nil, options=0)`, also
`XML::Reader.string`. The `size_t` of `strlen` is converted to the `int size`
parameter of `xmlReaderForMemory`. -/
def ruby_xml_reader_new_data (E : Engine) (argv : List VALUE) (self : Klass) : Result VALUE := do
  let (data, url, encoding, options) ← rb_scan_args_13 argv
  let c_data ← RVAL2CSTR data
  let c_url ← optCStr url
  let c_encoding ← optCStr encoding
  let c_options ← optInt options
  match E.xmlReaderForMemory c_data (toCInt (strlen c_data)) c_url c_encoding c_options with
  | none => rb_raise .rb_eRuntimeError "cannot create text reader for given data"
  | some reader => pure (ruby_xml_reader_new self reader)

/-- `reader.close`. -/
def ruby_xml_reader_close (reader : xmlTextReader) : VALUE × xmlTextReader :=
  let (ret, r) := xmlTextReaderClose reader
  (INT2FIX ret, r)

/-- `reader.read`. -/
def ruby_xml_reader_read (reader : xmlTextReader) : VALUE × xmlTextReader :=
  let (ret, r) := xmlTextReaderRead reader
  (INT2FIX ret, r)

/-- `reader.next_sibling`: `INT2FIX(xmlTextReaderNextSibling(..))`. The engine
function is a parameter: it is external, and what it answers on a reader that
is not over a pre-parsed document is stated where a theorem needs it. -/
def ruby_xml_reader_next_sibling
    (xmlTextReaderNextSibling : xmlTextReader → Int × xmlTextReader)
    (reader : xmlTextReader) : VALUE × xmlTextReader :=
  let (ret, r) := xmlTextReaderNextSibling reader
  (INT2FIX ret, r)

/-- `reader.has_attributes?`: `xmlTextReaderHasAttributes(..) ? Qtrue : Qfalse`. -/
def ruby_xml_reader_has_attributes (reader : xmlTextReader) : VALUE :=
  if xmlTextReaderHasAttributes reader ≠ 0 then .Qtrue else .Qfalse

/-- `reader.has_value?`. -/
def ruby_xml_reader_has_value (reader : xmlTextReader) : VALUE :=
  if xmlTextReaderHasValue reader ≠ 0 then .Qtrue else .Qfalse

/-- `reader.default?`. -/
def ruby_xml_reader_default (reader : xmlTextReader) : VALUE :=
  if xmlTextReaderIsDefault reader ≠ 0 then .Qtrue else .Qfalse

/-- `reader.namespace_declaration?`. -/
def ruby_xml_reader_namespace_declaration (reader : xmlTextReader) : VALUE :=
  if xmlTextReaderIsNamespaceDecl reader ≠ 0 then .Qtrue else .Qfalse

/-- `reader.empty_element?`. -/
def ruby_xml_reader_empty_element (reader : xmlTextReader) : VALUE :=
  if xmlTextReaderIsEmptyElement reader ≠ 0 then .Qtrue else .Qfalse

/-- `reader.valid?`. -/
def ruby_xml_reader_valid (reader : xmlTextReader) : VALUE :=
  if xmlTextReaderIsValid reader ≠ 0 then .Qtrue else .Qfalse

/-- `reader.name`. -/
def ruby_xml_reader_name (reader : xmlTextReader) : Result VALUE :=
  CSTR2RVAL (fun _ => xmlTextReaderConstName reader)

/-- `reader.local_name`. -/
def ruby_xml_reader_local_name (reader : xmlTextReader) : Result VALUE :=
  CSTR2RVAL (fun _ => xmlTextReaderConstLocalName reader)

/-- `reader.namespace_uri`. -/
def ruby_xml_reader_namespace_uri (reader : xmlTextReader) : Result VALUE :=
  CSTR2RVAL (fun _ => xmlTextReaderConstNamespaceUri reader)

/-- `reader.value`. -/
def ruby_xml_reader_value (reader : xmlTextReader) : Result VALUE :=
  CSTR2RVAL (fun _ => xmlTextReaderConstValue reader)

/-- `reader.prefix`. -/
def ruby_xml_reader_prefix (reader : xmlTextReader) : Result VALUE :=
  CSTR2RVAL (fun _ => xmlTextReaderConstPrefix reader)

/-- `reader[key]`. -/
def ruby_xml_reader_attribute (reader : xmlTextReader) (key : VALUE) : Result VALUE := do
  let attr ←
    if TYPE key = .T_FIXNUM then do
      let no ← FIX2INT key
      pure (xmlTextReaderGetAttributeNo reader no)
    else do
      let name ← RVAL2CSTR key
      pure (xmlTextReaderGetAttribute reader name)
  CSTR2RVAL2 attr

/-- The two attribute lookups of the engine, each with the reader struct it
leaves behind. The engine is external: where a theorem speaks of what a lookup
answers for a given index, or of the reader after `reader[key]`, the lookups
are this parameter. -/
structure AttributeLookup where
  xmlTextReaderGetAttributeNo : xmlTextReader → Int → Option Bytes × xmlTextReader
  xmlTextReaderGetAttribute : xmlTextReader → Bytes → Option Bytes × xmlTextReader

/-- `reader[key]` over given engine lookups, together with the reader struct
after the call: the body of `ruby_xml_reader_attribute`, the engine taken as a
parameter. A conversion that raises leaves before the engine is called. -/
def ruby_xml_reader_attribute_on (A : AttributeLookup) (reader : xmlTextReader) (key : VALUE) :
    Result VALUE × xmlTextReader :=
  if TYPE key = .T_FIXNUM then
    match FIX2INT key with
    | .error e => (.error e, reader)
    | .ok no =>
      let (attr, r) := A.xmlTextReaderGetAttributeNo reader no
      (CSTR2RVAL2 attr, r)
  else
    match RVAL2CSTR key with
    | .error e => (.error e, reader)
    | .ok name =>
      let (attr, r) := A.xmlTextReaderGetAttribute reader name
      (CSTR2RVAL2 attr, r)

/-- The lookups modelled from the spec, as an `AttributeLookup`: they are
queries and leave the reader as it is. -/
def specLookup : AttributeLookup :=
  { xmlTextReaderGetAttributeNo := fun r no => (xmlTextReaderGetAttributeNo r no, r),
    xmlTextReaderGetAttribute := fun r name => (xmlTextReaderGetAttribute r name, r) }

/-- Engine lookups in which the lookup by index does not test the sign of the
index, as libxml2 does not (it steps `for (i = 0; i < no; i++)` from the first
attribute): an index below zero is answered like index 0. An instance of the
parameter, not derived from the spec. -/
def libxml2Lookup : AttributeLookup :=
  { xmlTextReaderGetAttributeNo := fun r no =>
      (match r.node with
       | none => none
       | some v => (v.attributes.get? no.toNat).map Prod.snd, r),
    xmlTextReaderGetAttribute := fun r name => (xmlTextReaderGetAttribute r name, r) }

/-- `reader.lookup_namespace(prefix)`. -/
def ruby_xml_reader_lookup_namespace (reader : xmlTextReader) (pfx : VALUE) : Result VALUE := do
  let c_pfx ← RVAL2CSTR pfx
  CSTR2RVAL2 (xmlTextReaderLookupNamespace reader (some c_pfx))

/-- Modelled from the spec: `ruby_xml_document_wrap` (in
`ruby_xml_document.c`, not among the sources). The document the subtree is
part of becomes the owner responsible for the eventual release of the store
(section 4.4), and the marking is idempotent: a document that has an owner
keeps that one. -/
def ruby_xml_document_wrap (doc : xmlDoc) : VALUE × xmlDoc :=
  let doc1 := if doc.owners = 0 then { doc with owners := 1 } else doc
  (.data .cXMLDocument (some .ruby_xml_document_free) (.doc doc1), doc1)

/-- Modelled from the spec: `ruby_xml_node2_wrap` (in `ruby_xml_node.c`, not
among the sources): the Ruby node object that refers to the node at `node` in
the document. -/
def ruby_xml_node2_wrap (klass : Klass) (node : Nat) : VALUE :=
  .data klass (some .ruby_xml_node_free) (.node node)

/-- `reader.expand`. The document wrapper sets `_private` of the document of
the reader through the pointer, hence the write-back into `reader.doc`. -/
def ruby_xml_reader_expand (reader0 : xmlTextReader) : VALUE × xmlTextReader :=
  let (node, reader1) := xmlTextReaderExpand reader0
  match node with
  | none => (.Qnil, reader1)
  | some n =>
    let reader2 := xmlTextReaderPreserve reader1
    let doc := xmlTextReaderCurrentDoc reader2
    let (_, doc1) := ruby_xml_document_wrap doc
    (ruby_xml_node2_wrap .cXMLNode n, { reader2 with doc := doc1 })

/-! ## Vocabulary of the properties -/

/-- The ownership state of the backing store: the `preserveRequested` flag of
the reader and the number of document wrappers that will release the store. -/
def ownership (r : xmlTextReader) : Bool × Nat := (r.preserve, r.doc.owners)

/-- The node record a Ruby node object sees at `addr`; absent once the store
was released. -/
def nodeAt (d : xmlDoc) (addr : Nat) : Option xmlNode := d.nodes.lookup addr

/-- The calls a caller can make on a reader between two observations. -/
inductive ReaderCall where
  | read
  | expand
  | close
deriving DecidableEq, Repr

/-- The reader after one call. -/
def ReaderCall.run : ReaderCall → xmlTextReader → xmlTextReader
  | .read, r => (ruby_xml_reader_read r).2
  | .expand, r => (ruby_xml_reader_expand r).2
  | .close, r => (ruby_xml_reader_close r).2

/-- The reader after a sequence of calls, first call first. -/
def runCalls : List ReaderCall → xmlTextReader → xmlTextReader
  | [], r => r
  | c :: cs, r => runCalls cs (c.run r)

/-- The faithful conversion of an engine text to Ruby: `nil` for no value, a
String of the bytes of the text otherwise. -/
def textToRuby : Option Bytes → VALUE
  | none => .Qnil
  | some t => .string (cText t)

/-! ## The document `<a x="1"><b>t</b></a>` -/

def exText : NodeView :=
  { addr := 3, type := 3, depth := 2, name := some [35, 116, 101, 120, 116],
    localName := some [35, 116, 101, 120, 116], nsPrefix := none, namespaceUri := none,
    value := some [116], attributes := [], nsScope := [],
    subtree := some ({ name := [116, 101, 120, 116], content := some [116],
                       properties := [], children := [] }, []) }

def exB : NodeView :=
  { addr := 2, type := 1, depth := 1, name := some [98], localName := some [98],
    nsPrefix := none, namespaceUri := none, value := none, attributes := [], nsScope := [],
    subtree := some ({ name := [98], content := none, properties := [], children := [3] },
                     [(3, { name := [116, 101, 120, 116], content := some [116],
                            properties := [], children := [] })]) }

def exA : NodeView :=
  { addr := 1, type := 1, depth := 0, name := some [97], localName := some [97],
    nsPrefix := none, namespaceUri := none, value := none,
    attributes := [([120], [49])], nsScope := [],
    subtree := some ({ name := [97], content := none, properties := [([120], [49])],
                       children := [2] },
                     [(2, { name := [98], content := none, properties := [], children := [3] }),
                      (3, { name := [116, 101, 120, 116], content := some [116],
                            properties := [], children := [] })]) }

def exEndB : NodeView := { exB with type := 15, subtree := none }

def exEndA : NodeView := { exA with type := 15, subtree := none }

/-- A reader over the document, before the first read. -/
def exReader : xmlTextReader :=
  { mode := .XML_TEXTREADER_MODE_INITIAL, node := none,
    input := [some exA, some exB, some exText, some exEndB, some exEndA],
    preserve := false, doc := { nodes := [], owners := 0 } }

/-- The reader positioned on the element `a`. -/
def exReaderOnA : xmlTextReader := (ruby_xml_reader_read exReader).2

/-- An engine that can open the file `a.xml` and nothing else, reads any open
stream, walks any document and parses any buffer. -/
def exEngine : Engine :=
  { xmlReaderForFile := fun path _ _ =>
      if path = [97, 46, 120, 109, 108] then some exReader else none,
    xmlReaderForIO := fun f _ _ _ => f.map (fun _ => exReader),
    xmlReaderWalker := fun p =>
      match p with
      | .doc d => some { exReader with doc := d, preserve := true, walker := true }
      | _ => none,
    xmlReaderForMemory := fun _ size _ _ _ => if size < 0 then none else some exReader }

/-- A reader positioned on the element `r` of `<r xmlns="urn:x"/>`: the
default namespace is declared on the element itself. -/
def exReaderDefaultNs : xmlTextReader :=
  { mode := .XML_TEXTREADER_MODE_INTERACTIVE,
    node := some { addr := 1, type := 1, depth := 0, name := some [114],
                   localName := some [114], nsPrefix := none,
                   namespaceUri := some [117, 114, 110, 58, 120], value := none,
                   attributes := [], nsScope := [(none, [117, 114, 110, 58, 120])],
                   subtree := none },
    input := [], preserve := false, doc := { nodes := [], owners := 0 } }

/-- What a construction entry point owes its caller once the engine was asked
for a reader: a `RuntimeError` with the message of the entry point when the
engine produced no handle, and otherwise a Reader object: a data object of the
class the entry point was called on, freed by `xmlFreeTextReader`, that wraps
exactly the handle. -/
def constructorOutcome (self : Klass) (msg : String) : Option xmlTextReader → Result VALUE
  | none => rb_raise .rb_eRuntimeError msg
  | some reader => pure (.data self (some .xmlFreeTextReader) (.reader reader))

/-- A text query is faithful to the engine: `nil` exactly when the engine
reports no value, and the String of the bytes of the text when it reports
one. -/
def faithfulText (engine : Option Bytes) (result : Result VALUE) : Prop :=
  (engine = none ↔ result = pure .Qnil) ∧
  ∀ t, engine = some t → result = pure (.string (cText t))

/-- A readable duplex stream (a pipe opened for reading and writing, a
socket): the read side is the stdio handle 3, the write side the separate
handle 4; the mode is `FMODE_READWRITE`. -/
def exDuplex : OpenFile := { f := some 3, f2 := some 4, mode := 3 }

/-- The document `<a/>` followed by `n` blanks. -/
def paddedDocument (n : Nat) : Bytes := [60, 97, 47, 62] ++ List.replicate n 32

end LibxmlRuby

namespace LibxmlRuby

/-! ## Expansion and ownership -/

theorem expand_of_engine_some (reader : xmlTextReader) (n : Nat)
    (h : (xmlTextReaderExpand reader).1 = some n) :
    ruby_xml_reader_expand reader =
      (ruby_xml_node2_wrap .cXMLNode n,
       { xmlTextReaderPreserve (xmlTextReaderExpand reader).2 with
         doc := (ruby_xml_document_wrap (xmlTextReaderExpand reader).2.doc).2 }) := by
  unfold ruby_xml_reader_expand
  rcases hx : xmlTextReaderExpand reader with ⟨node, r1⟩
  rw [hx] at h
  simp only at h
  subst h
  simp [xmlTextReaderPreserve, xmlTextReaderCurrentDoc]

theorem expand_of_engine_none (reader : xmlTextReader)
    (h : (xmlTextReaderExpand reader).1 = none) :
    ruby_xml_reader_expand reader = (.Qnil, (xmlTextReaderExpand reader).2) := by
  unfold ruby_xml_reader_expand
  rcases hx : xmlTextReaderExpand reader with ⟨node, r1⟩
  rw [hx] at h
  simp only at h
  subst h
  rfl

theorem engine_expand_preserve (reader : xmlTextReader) :
    (xmlTextReaderExpand reader).2.preserve = reader.preserve := by
  unfold xmlTextReaderExpand
  split
  · rfl
  · split
    · rfl
    · split <;> rfl

theorem engine_expand_owners (reader : xmlTextReader) :
    (xmlTextReaderExpand reader).2.doc.owners = reader.doc.owners := by
  unfold xmlTextReaderExpand
  split
  · rfl
  · split
    · rfl
    · split <;> rfl

/-- C1: whenever `expand` returns a node, the engine produced a node for the
current position, the value returned wraps exactly that node, the backing
document is marked `preserveRequested` in the resulting reader, and the
teardown of that reader (`xmlFreeTextReader`) leaves the store as it is. -/
theorem expand_marks_preserve (reader : xmlTextReader)
    (h : (ruby_xml_reader_expand reader).1 ≠ .Qnil) :
    ∃ n, (xmlTextReaderExpand reader).1 = some n ∧
      (ruby_xml_reader_expand reader).1 = ruby_xml_node2_wrap .cXMLNode n ∧
      (ruby_xml_reader_expand reader).2.preserve = true ∧
      xmlFreeTextReader (ruby_xml_reader_expand reader).2
        = (ruby_xml_reader_expand reader).2.doc := by
  cases hx : (xmlTextReaderExpand reader).1 with
  | none =>
    rw [expand_of_engine_none reader hx] at h
    exact absurd rfl h
  | some n =>
    refine ⟨n, rfl, ?_⟩
    rw [expand_of_engine_some reader n hx]
    simp [xmlTextReaderPreserve, xmlFreeTextReader, releaseStore]

/-- Witness of C1: expanding the element `a` of `<a x="1"><b>t</b></a>`. -/
theorem expand_marks_preserve_witness :
    (ruby_xml_reader_expand exReaderOnA).1 ≠ .Qnil ∧
    ∃ n, (xmlTextReaderExpand exReaderOnA).1 = some n ∧
      (ruby_xml_reader_expand exReaderOnA).1 = ruby_xml_node2_wrap .cXMLNode n ∧
      (ruby_xml_reader_expand exReaderOnA).2.preserve = true ∧
      xmlFreeTextReader (ruby_xml_reader_expand exReaderOnA).2
        = (ruby_xml_reader_expand exReaderOnA).2.doc :=
  ⟨by decide, expand_marks_preserve exReaderOnA (by decide)⟩

theorem lookup_append_some {β : Type} (a : Nat) (b : β) (l1 l2 : List (Nat × β))
    (h : l1.lookup a = some b) : (l1 ++ l2).lookup a = some b := by
  induction l1 with
  | nil => simp at h
  | cons x xs ih =>
    rcases x with ⟨k, w⟩
    simp only [List.cons_append, List.lookup_cons] at h ⊢
    split
    · rename_i hk
      rw [hk] at h
      exact h
    · rename_i hk
      rw [hk] at h
      exact ih h

theorem lookup_append_none {β : Type} (a : Nat) (l1 l2 : List (Nat × β))
    (h : l1.lookup a = none) : (l1 ++ l2).lookup a = l2.lookup a := by
  induction l1 with
  | nil => rfl
  | cons x xs ih =>
    rcases x with ⟨k, w⟩
    simp only [List.cons_append, List.lookup_cons] at h ⊢
    split
    · rename_i hk
      rw [hk] at h
      simp at h
    · rename_i hk
      rw [hk] at h
      exact ih h

theorem engine_expand_doc_of_none (reader : xmlTextReader)
    (h : (xmlTextReaderExpand reader).1 = none) :
    (xmlTextReaderExpand reader).2.doc = reader.doc := by
  unfold xmlTextReaderExpand at h ⊢
  cases hn : reader.node with
  | none => rfl
  | some v =>
    simp only [hn] at h ⊢
    cases hs : v.subtree with
    | none => rfl
    | some p =>
      rcases p with ⟨root, below⟩
      simp only [hs] at h
      split at h <;> simp at h

/-- The engine's expansion keeps every record that is in the store. -/
theorem engine_expand_keeps (reader : xmlTextReader) (a : Nat) (rec : xmlNode)
    (h : nodeAt reader.doc a = some rec) :
    nodeAt (xmlTextReaderExpand reader).2.doc a = some rec := by
  unfold xmlTextReaderExpand
  split
  · exact h
  · split
    · exact h
    · split
      · exact h
      · exact lookup_append_some a rec _ _ h

/-- The node the engine returns from an expansion is in the store. -/
theorem engine_expand_valid (reader : xmlTextReader) (n : Nat)
    (h : (xmlTextReaderExpand reader).1 = some n) :
    ∃ rec, nodeAt (xmlTextReaderExpand reader).2.doc n = some rec := by
  unfold xmlTextReaderExpand at h ⊢
  split
  · rename_i hn
    simp [hn] at h
  · rename_i v hn
    simp only [hn] at h
    split
    · rename_i hs
      simp [hs] at h
    · rename_i root below hs
      simp only [hs] at h
      split
      · rename_i hl
        simp only [hl, if_true] at h
        cases h
        exact Option.isSome_iff_exists.mp hl
      · rename_i hl
        simp only [hl] at h
        cases h
        refine ⟨root, ?_⟩
        have hnone : reader.doc.nodes.lookup v.addr = none := by
          cases hq : reader.doc.nodes.lookup v.addr with
          | none => rfl
          | some x => simp [hq] at hl
        show (reader.doc.nodes ++ (v.addr, root) :: below).lookup v.addr = some root
        rw [lookup_append_none _ _ _ hnone]
        simp [List.lookup_cons]

theorem read_ownership (r : xmlTextReader) :
    ownership (ruby_xml_reader_read r).2 = ownership r := by
  have hrel : (releaseStore r).owners = r.doc.owners := by
    unfold releaseStore
    split <;> rfl
  unfold ruby_xml_reader_read xmlTextReaderRead ownership
  cases r.mode
  case XML_TEXTREADER_MODE_CLOSED => rfl
  case XML_TEXTREADER_MODE_ERROR => rfl
  all_goals
    simp only
    rcases r.input with _ | ⟨x, xs⟩
    · rfl
    · cases x <;> simp only [hrel]

theorem close_ownership (r : xmlTextReader) :
    ownership (ruby_xml_reader_close r).2 = ownership r := by
  unfold ruby_xml_reader_close xmlTextReaderClose ownership releaseStore
  simp only
  split <;> rfl

theorem expand_ownership (r : xmlTextReader) :
    ownership (ruby_xml_reader_expand r).2 = ownership r ∨
    ownership (ruby_xml_reader_expand r).2
      = (true, if r.doc.owners = 0 then 1 else r.doc.owners) := by
  cases hx : (xmlTextReaderExpand r).1 with
  | none =>
    left
    rw [expand_of_engine_none r hx]
    simp [ownership, engine_expand_preserve, engine_expand_owners]
  | some n =>
    right
    rw [expand_of_engine_some r n hx]
    simp only [ownership, xmlTextReaderPreserve, ruby_xml_document_wrap]
    split <;> simp_all [engine_expand_owners]

/-- Once the store is preserved and has an owner, no call changes the
ownership state. -/
theorem call_ownership_taken (c : ReaderCall) (r : xmlTextReader)
    (hp : r.preserve = true) (ho : r.doc.owners ≠ 0) :
    ownership (c.run r) = ownership r := by
  cases c with
  | read => exact read_ownership r
  | close => exact close_ownership r
  | expand =>
    rcases expand_ownership r with h | h
    · exact h
    · show ownership (ruby_xml_reader_expand r).2 = ownership r
      rw [h]
      simp [ownership, hp, ho]

theorem runCalls_ownership_taken (calls : List ReaderCall) (r : xmlTextReader)
    (hp : r.preserve = true) (ho : r.doc.owners ≠ 0) :
    ownership (runCalls calls r) = ownership r := by
  induction calls generalizing r with
  | nil => rfl
  | cons c cs ih =>
    have hc := call_ownership_taken c r hp ho
    have hp1 : (c.run r).preserve = true := by
      have := congrArg Prod.fst hc
      simpa [ownership, hp] using this
    have ho1 : (c.run r).doc.owners ≠ 0 := by
      have := congrArg Prod.snd hc
      simp only [ownership] at this
      rw [this]
      exact ho
    show ownership (runCalls cs (c.run r)) = ownership r
    rw [ih (c.run r) hp1 ho1, hc]

/-- C2: after a first successful `expand`, the ownership state is taken once
(the flag is set and the store has the owner it had, or one owner when it had
none), and it is the same after any further calls, among them any number of
further `expand` calls: the marking is not taken again and no further owner is
created. -/
theorem expand_ownership_once (reader : xmlTextReader)
    (h : (ruby_xml_reader_expand reader).1 ≠ .Qnil) (calls : List ReaderCall) :
    ownership (ruby_xml_reader_expand reader).2
      = (true, if reader.doc.owners = 0 then 1 else reader.doc.owners) ∧
    ownership (runCalls calls (ruby_xml_reader_expand reader).2)
      = ownership (ruby_xml_reader_expand reader).2 ∧
    ownership (ruby_xml_reader_expand (ruby_xml_reader_expand reader).2).2
      = ownership (ruby_xml_reader_expand reader).2 := by
  have h1 : ownership (ruby_xml_reader_expand reader).2
      = (true, if reader.doc.owners = 0 then 1 else reader.doc.owners) := by
    cases hx : (xmlTextReaderExpand reader).1 with
    | none =>
      rw [expand_of_engine_none reader hx] at h
      exact absurd rfl h
    | some n =>
      rw [expand_of_engine_some reader n hx]
      simp only [ownership, xmlTextReaderPreserve, ruby_xml_document_wrap]
      split <;> simp_all [engine_expand_owners]
  have hp : (ruby_xml_reader_expand reader).2.preserve = true := by
    have := congrArg Prod.fst h1
    simpa [ownership] using this
  have ho : (ruby_xml_reader_expand reader).2.doc.owners ≠ 0 := by
    have := congrArg Prod.snd h1
    simp only [ownership] at this
    rw [this]
    split <;> omega
  exact ⟨h1, runCalls_ownership_taken calls _ hp ho,
    call_ownership_taken .expand _ hp ho⟩

/-- Witness of C2: on the element `a`, a first expansion followed by a second
one, a read and a third one. -/
theorem expand_ownership_once_witness :
    (ruby_xml_reader_expand exReaderOnA).1 ≠ .Qnil ∧
    (ruby_xml_reader_expand (ruby_xml_reader_expand exReaderOnA).2).1 ≠ .Qnil ∧
    ownership (ruby_xml_reader_expand exReaderOnA).2 = (true, 1) ∧
    ownership (runCalls [.expand, .read, .expand] (ruby_xml_reader_expand exReaderOnA).2)
      = ownership (ruby_xml_reader_expand exReaderOnA).2 ∧
    ownership (ruby_xml_reader_expand (ruby_xml_reader_expand exReaderOnA).2).2
      = ownership (ruby_xml_reader_expand exReaderOnA).2 :=
  ⟨by decide, by decide,
    expand_ownership_once exReaderOnA (by decide) [.expand, .read, .expand]⟩

/-- C3: when the engine yields no node for the current position, `expand`
returns `nil` (the function returns a value, it has no raising path) and the
ownership state is the one before the call: the flag is as it was and the
document, with its owners, is untouched. -/
theorem expand_absent (reader : xmlTextReader)
    (h : (xmlTextReaderExpand reader).1 = none) :
    (ruby_xml_reader_expand reader).1 = .Qnil ∧
    (ruby_xml_reader_expand reader).2.preserve = reader.preserve ∧
    (ruby_xml_reader_expand reader).2.doc = reader.doc ∧
    ownership (ruby_xml_reader_expand reader).2 = ownership reader := by
  rw [expand_of_engine_none reader h]
  simp [ownership, engine_expand_preserve, engine_expand_doc_of_none reader h]

/-- Witness of C3: before the first read there is no current node. -/
theorem expand_absent_witness :
    (xmlTextReaderExpand exReader).1 = none ∧
    (ruby_xml_reader_expand exReader).1 = .Qnil ∧
    (ruby_xml_reader_expand exReader).2.preserve = false ∧
    (ruby_xml_reader_expand exReader).2.doc = { nodes := [], owners := 0 } ∧
    ownership (ruby_xml_reader_expand exReader).2 = ownership exReader :=
  ⟨by decide, expand_absent exReader (by decide)⟩

/-! ## The expanded subtree outlives the motion of the reader -/

theorem document_wrap_nodes (d : xmlDoc) : (ruby_xml_document_wrap d).2.nodes = d.nodes := by
  unfold ruby_xml_document_wrap
  simp only
  split <;> rfl

theorem releaseStore_of_preserve (r : xmlTextReader) (hp : r.preserve = true) :
    releaseStore r = r.doc := by
  simp [releaseStore, hp]

theorem read_preserve (r : xmlTextReader) :
    (ruby_xml_reader_read r).2.preserve = r.preserve := by
  have := congrArg Prod.fst (read_ownership r)
  simpa [ownership] using this

theorem read_doc_of_preserve (r : xmlTextReader) (hp : r.preserve = true) :
    (ruby_xml_reader_read r).2.doc = r.doc := by
  unfold ruby_xml_reader_read xmlTextReaderRead
  cases r.mode
  case XML_TEXTREADER_MODE_CLOSED => rfl
  case XML_TEXTREADER_MODE_ERROR => rfl
  all_goals
    simp only
    rcases r.input with _ | ⟨x, xs⟩
    · rfl
    · cases x
      · rfl
      · exact releaseStore_of_preserve r hp

theorem expand_preserve_mono (r : xmlTextReader) (hp : r.preserve = true) :
    (ruby_xml_reader_expand r).2.preserve = true := by
  cases hx : (xmlTextReaderExpand r).1 with
  | none =>
    rw [expand_of_engine_none r hx, engine_expand_preserve]
    exact hp
  | some n =>
    rw [expand_of_engine_some r n hx]
    rfl

theorem expand_keeps (r : xmlTextReader) (a : Nat) (rec : xmlNode)
    (h : nodeAt r.doc a = some rec) :
    nodeAt (ruby_xml_reader_expand r).2.doc a = some rec := by
  have hk := engine_expand_keeps r a rec h
  cases hx : (xmlTextReaderExpand r).1 with
  | none =>
    rw [expand_of_engine_none r hx]
    exact hk
  | some n =>
    rw [expand_of_engine_some r n hx]
    show ((ruby_xml_document_wrap (xmlTextReaderExpand r).2.doc).2.nodes).lookup a = some rec
    rw [document_wrap_nodes]
    exact hk

/-- On a preserved reader a call keeps the flag and every record of the
store. -/
theorem call_keeps (c : ReaderCall) (r : xmlTextReader) (hp : r.preserve = true) :
    (c.run r).preserve = true ∧
    ∀ a rec, nodeAt r.doc a = some rec → nodeAt (c.run r).doc a = some rec := by
  cases c with
  | read =>
    refine ⟨?_, ?_⟩
    · show (ruby_xml_reader_read r).2.preserve = true
      rw [read_preserve]
      exact hp
    · intro a rec h
      show nodeAt (ruby_xml_reader_read r).2.doc a = some rec
      rw [read_doc_of_preserve r hp]
      exact h
  | close =>
    refine ⟨hp, ?_⟩
    intro a rec h
    show nodeAt (releaseStore r) a = some rec
    rw [releaseStore_of_preserve r hp]
    exact h
  | expand =>
    exact ⟨expand_preserve_mono r hp, fun a rec h => expand_keeps r a rec h⟩

theorem runCalls_keeps (calls : List ReaderCall) (r : xmlTextReader)
    (hp : r.preserve = true) :
    (runCalls calls r).preserve = true ∧
    ∀ a rec, nodeAt r.doc a = some rec → nodeAt (runCalls calls r).doc a = some rec := by
  induction calls generalizing r with
  | nil => exact ⟨hp, fun _ _ h => h⟩
  | cons c cs ih =>
    have hc := call_keeps c r hp
    have hrest := ih (c.run r) hc.1
    exact ⟨hrest.1, fun a rec h => hrest.2 a rec (hc.2 a rec h)⟩

/-- C4: the node a successful `expand` returns is in the backing store, and
after any further calls on the reader (reads, a close, further expansions) and
after the teardown of the reader, every node record that was in the store at
the moment of expansion, so the name, the attribute values and the children of
the returned node and of its descendants, is still there and the same. -/
theorem expanded_subtree_stable (reader : xmlTextReader)
    (h : (ruby_xml_reader_expand reader).1 ≠ .Qnil) (calls : List ReaderCall) :
    ∃ n, (ruby_xml_reader_expand reader).1 = ruby_xml_node2_wrap .cXMLNode n ∧
      (∃ rec, nodeAt (ruby_xml_reader_expand reader).2.doc n = some rec) ∧
      ∀ a rec, nodeAt (ruby_xml_reader_expand reader).2.doc a = some rec →
        nodeAt (runCalls calls (ruby_xml_reader_expand reader).2).doc a = some rec ∧
        nodeAt (xmlFreeTextReader (runCalls calls (ruby_xml_reader_expand reader).2)) a
          = some rec := by
  cases hx : (xmlTextReaderExpand reader).1 with
  | none =>
    rw [expand_of_engine_none reader hx] at h
    exact absurd rfl h
  | some n =>
    have hp : (ruby_xml_reader_expand reader).2.preserve = true := by
      rw [expand_of_engine_some reader n hx]
      rfl
    refine ⟨n, ?_, ?_, ?_⟩
    · rw [expand_of_engine_some reader n hx]
    · obtain ⟨rec, hrec⟩ := engine_expand_valid reader n hx
      refine ⟨rec, ?_⟩
      rw [expand_of_engine_some reader n hx]
      show ((ruby_xml_document_wrap (xmlTextReaderExpand reader).2.doc).2.nodes).lookup n
        = some rec
      rw [document_wrap_nodes]
      exact hrec
    · intro a rec ha
      have hk := runCalls_keeps calls _ hp
      refine ⟨hk.2 a rec ha, ?_⟩
      show nodeAt (releaseStore _) a = some rec
      rw [releaseStore_of_preserve _ hk.1]
      exact hk.2 a rec ha

/-- Witness of C4: the element `a` is expanded, the reader is read to the end
of the document and closed; the record of `a` is the one of the expansion,
before and after the teardown. -/
theorem expanded_subtree_stable_witness :
    (ruby_xml_reader_expand exReaderOnA).1 ≠ .Qnil ∧
    nodeAt (runCalls [.read, .read, .read, .read, .read, .close]
        (ruby_xml_reader_expand exReaderOnA).2).doc 1
      = some { name := [97], content := none, properties := [([120], [49])],
               children := [2] } ∧
    nodeAt (xmlFreeTextReader (runCalls [.read, .read, .read, .read, .read, .close]
        (ruby_xml_reader_expand exReaderOnA).2)) 1
      = some { name := [97], content := none, properties := [([120], [49])],
               children := [2] } := by
  obtain ⟨_, _, _, hkeep⟩ := expanded_subtree_stable exReaderOnA (by decide)
    [.read, .read, .read, .read, .read, .close]
  exact ⟨by decide, hkeep 1 _ (by decide)⟩

/-! ## Attribute lookup: `reader[key]` -/

theorem take_strlen (buf : Bytes) : buf.take (strlen buf) = cText buf := by
  unfold strlen cText
  induction buf with
  | nil => rfl
  | cons b bs ih =>
    by_cases hb : (b != 0) = true
    · simp only [List.takeWhile_cons, hb, if_true, List.length_cons, List.take_succ_cons]
      rw [ih]
    · simp [List.takeWhile_cons, hb]

theorem cText_of_no_nul (s : Bytes) (h : 0 ∉ s) : cText s = s := by
  unfold cText
  rw [List.takeWhile_eq_self_iff]
  intro b hb
  simp only [bne_iff_ne, ne_eq]
  intro h0
  exact h (h0 ▸ hb)

theorem rb_str_new2_some (buf : Bytes) : rb_str_new2 (some buf) = pure (.string (cText buf)) := by
  simp [rb_str_new2, take_strlen]

theorem CSTR2RVAL2_eq (x : Option Bytes) : CSTR2RVAL2 x = pure (textToRuby x) := by
  cases x with
  | none => rfl
  | some buf =>
    simp only [CSTR2RVAL2, __rb_str_new_and_free, rb_str_new2_some, textToRuby]
    rfl

theorem StringValueCStr_of_no_nul (x : VALUE) (s : Bytes)
    (hs : rb_string_value x = pure s) (h0 : 0 ∉ s) : StringValueCStr x = pure s := by
  have hlen : s.length = strlen s := by
    unfold strlen
    rw [cText_of_no_nul s h0]
  unfold StringValueCStr
  rw [hs]
  simp only [pure_bind, ne_eq]
  rw [if_neg (by simpa using hlen)]

theorem attribute_fixnum (reader : xmlTextReader) (n : Int)
    (hmin : INT_MIN ≤ n) (hmax : n ≤ INT_MAX) :
    ruby_xml_reader_attribute reader (.fixnum n)
      = pure (textToRuby (xmlTextReaderGetAttributeNo reader n)) := by
  unfold ruby_xml_reader_attribute
  simp only [TYPE, if_true, FIX2INT, hmin, hmax, and_self, pure_bind, CSTR2RVAL2_eq]

/-- C5, as amended: for a Fixnum key in the range of a C `int`, `reader[key]`
is the engine lookup by index with that index; for a key that is a String (or
converts with `to_str`) without NUL byte, it is the engine lookup by qualified
name with the bytes of the key; in both cases the engine result is converted
faithfully, the String of the same bytes when a value was found and `nil` when
none was. A key that is neither a Fixnum nor convertible to a String raises
the error of the conversion. -/
theorem attribute_lookup (reader : xmlTextReader) (key : VALUE) :
    (∀ n, key = .fixnum n → INT_MIN ≤ n → n ≤ INT_MAX →
      ruby_xml_reader_attribute reader key
        = pure (textToRuby (xmlTextReaderGetAttributeNo reader n))) ∧
    (∀ s, rb_string_value key = pure s → 0 ∉ s →
      ruby_xml_reader_attribute reader key
        = pure (textToRuby (xmlTextReaderGetAttribute reader s))) ∧
    (∀ e, TYPE key ≠ .T_FIXNUM → rb_string_value key = Except.error e →
      ruby_xml_reader_attribute reader key = Except.error e) := by
  refine ⟨?_, ?_, ?_⟩
  · intro n hk hmin hmax
    subst hk
    exact attribute_fixnum reader n hmin hmax
  · intro s hs h0
    have hty : TYPE key ≠ .T_FIXNUM := by
      intro hf
      cases key <;> simp [TYPE] at hf
      simp [rb_string_value, rb_raise, pure, Except.pure] at hs
    unfold ruby_xml_reader_attribute
    rw [if_neg hty]
    simp only [RVAL2CSTR, StringValueCStr_of_no_nul key s hs h0, pure_bind, CSTR2RVAL2_eq]
  · intro e hty he
    unfold ruby_xml_reader_attribute
    rw [if_neg hty]
    simp only [RVAL2CSTR, StringValueCStr, he]
    rfl

/-- Witness of C5, the scenario of the spec: on the element `a` of
`<a x="1"><b>t</b></a>`, `reader[0]` and `reader["x"]` are `"1"` and
`reader["missing"]` is `nil`. -/
theorem attribute_lookup_witness :
    ruby_xml_reader_attribute exReaderOnA (.fixnum 0) = pure (.string [49]) ∧
    ruby_xml_reader_attribute exReaderOnA (.string [120]) = pure (.string [49]) ∧
    ruby_xml_reader_attribute exReaderOnA (.string [109, 105, 115, 115, 105, 110, 103])
      = pure .Qnil :=
  ⟨(attribute_lookup exReaderOnA (.fixnum 0)).1 0 rfl (by decide) (by decide),
   (attribute_lookup exReaderOnA (.string [120])).2.1 [120] rfl (by decide),
   (attribute_lookup exReaderOnA (.string [109, 105, 115, 115, 105, 110, 103])).2.1
     [109, 105, 115, 115, 105, 110, 103] rfl (by decide)⟩

/-- Counterexample to C5 as stated: the key `nil` has no text and the key
`"z\0y"` has a text, and for neither does `reader[key]` return the converted
result of a lookup by name (which would be `nil`, no such attribute): the call
raises `TypeError`, respectively `ArgumentError`. -/
theorem attribute_lookup_counterexample :
    ruby_xml_reader_attribute exReaderOnA .Qnil
      = Except.error { klass := .rb_eTypeError, msg := "cannot convert into String" } ∧
    xmlTextReaderGetAttribute exReaderOnA [122, 0, 121] = none ∧
    ruby_xml_reader_attribute exReaderOnA (.string [122, 0, 121])
      = Except.error { klass := .rb_eArgError, msg := "string contains null byte" } :=
  ⟨rfl, rfl, rfl⟩

theorem attribute_on_specLookup (reader : xmlTextReader) (key : VALUE) :
    ruby_xml_reader_attribute_on specLookup reader key
      = (ruby_xml_reader_attribute reader key, reader) := by
  unfold ruby_xml_reader_attribute_on ruby_xml_reader_attribute specLookup
  by_cases hty : TYPE key = .T_FIXNUM
  · rw [if_pos hty, if_pos hty]
    cases FIX2INT key <;> rfl
  · rw [if_neg hty, if_neg hty]
    cases RVAL2CSTR key <;> rfl

theorem libxml2Lookup_beyond_count (reader : xmlTextReader) (n : Int)
    (h : xmlTextReaderAttributeCount reader ≤ n) :
    libxml2Lookup.xmlTextReaderGetAttributeNo reader n = (none, reader) := by
  unfold xmlTextReaderAttributeCount at h
  show (_, reader) = (none, reader)
  cases hn : reader.node with
  | none => rfl
  | some v =>
    simp only [hn] at h
    have hle : v.attributes.length ≤ n.toNat := by omega
    simp only [List.get?_eq_none.mpr hle]
    rfl

theorem libxml2Lookup_negative (reader : xmlTextReader) (n : Int) (h : n < 0) :
    libxml2Lookup.xmlTextReaderGetAttributeNo reader n
      = libxml2Lookup.xmlTextReaderGetAttributeNo reader 0 := by
  have h0 : n.toNat = 0 := by omega
  show (_, reader) = (_, reader)
  rw [h0]
  rfl

/-- C7, the code at the failing input: on the element `r` of
`<r xmlns="urn:x"/>` the engine resolves the default namespace (null prefix)
to `urn:x`, but `lookup_namespace(nil)` raises `TypeError`, and it does so on
every reader: `RVAL2CSTR` is applied to the prefix without the `NIL_P` guard
of the sibling functions. -/
theorem lookup_namespace_nil_raises :
    xmlTextReaderLookupNamespace exReaderDefaultNs none = some [117, 114, 110, 58, 120] ∧
    ruby_xml_reader_lookup_namespace exReaderDefaultNs .Qnil
      = Except.error { klass := .rb_eTypeError, msg := "cannot convert into String" } ∧
    ∀ reader : xmlTextReader, ruby_xml_reader_lookup_namespace reader .Qnil
      = Except.error { klass := .rb_eTypeError, msg := "cannot convert into String" } :=
  ⟨rfl, rfl, fun _ => rfl⟩

/-! ## Advancing: `reader.read` -/

theorem engine_read_code (r : xmlTextReader) :
    (xmlTextReaderRead r).1 = 1 ∨ (xmlTextReaderRead r).1 = 0 ∨ (xmlTextReaderRead r).1 = -1 := by
  unfold xmlTextReaderRead
  cases r.mode
  case XML_TEXTREADER_MODE_CLOSED => exact Or.inr (Or.inr rfl)
  case XML_TEXTREADER_MODE_ERROR => exact Or.inr (Or.inr rfl)
  all_goals
    simp only
    rcases r.input with _ | ⟨x, xs⟩
    · exact Or.inr (Or.inl rfl)
    · cases x
      · exact Or.inr (Or.inr rfl)
      · exact Or.inl rfl

/-- C8: `read` returns the code of the engine advance, and nothing else: the
Fixnum of that code, with the reader state the engine left; the code is one of
1, 0 and -1, and the result is 1, 0 or -1 exactly when the engine code is. The
function returns a value on every reader, it has no raising path. -/
theorem read_tristate (reader : xmlTextReader) :
    (ruby_xml_reader_read reader).1 = .fixnum (xmlTextReaderRead reader).1 ∧
    (ruby_xml_reader_read reader).2 = (xmlTextReaderRead reader).2 ∧
    ((ruby_xml_reader_read reader).1 = .fixnum 1 ∨
      (ruby_xml_reader_read reader).1 = .fixnum 0 ∨
      (ruby_xml_reader_read reader).1 = .fixnum (-1)) ∧
    ((ruby_xml_reader_read reader).1 = .fixnum 1 ↔ (xmlTextReaderRead reader).1 = 1) ∧
    ((ruby_xml_reader_read reader).1 = .fixnum 0 ↔ (xmlTextReaderRead reader).1 = 0) ∧
    ((ruby_xml_reader_read reader).1 = .fixnum (-1) ↔ (xmlTextReaderRead reader).1 = -1) := by
  have h1 : (ruby_xml_reader_read reader).1 = .fixnum (xmlTextReaderRead reader).1 := rfl
  refine ⟨h1, rfl, ?_, ?_, ?_, ?_⟩
  · rw [h1]
    rcases engine_read_code reader with h | h | h <;> rw [h] <;> simp
  · rw [h1]
    exact ⟨fun h => VALUE.fixnum.inj h, fun h => congrArg VALUE.fixnum h⟩
  · rw [h1]
    exact ⟨fun h => VALUE.fixnum.inj h, fun h => congrArg VALUE.fixnum h⟩
  · rw [h1]
    exact ⟨fun h => VALUE.fixnum.inj h, fun h => congrArg VALUE.fixnum h⟩

/-! ## Construction -/

theorem constructorOutcome_ok (self : Klass) (msg : String) (handle : Option xmlTextReader)
    (v : VALUE) (h : constructorOutcome self msg handle = pure v) :
    ∃ reader, handle = some reader ∧ v = VALUE.data self (some .xmlFreeTextReader) (.reader reader) := by
  cases handle with
  | none => cases h
  | some reader =>
    refine ⟨reader, rfl, ?_⟩
    cases h
    rfl

theorem new_file_outcome (E : Engine) (argv : List VALUE) (self : Klass)
    (path encoding options : VALUE) (c_path : Bytes) (c_encoding : Option Bytes)
    (c_options : Int)
    (hargs : rb_scan_args_12 argv = pure (path, encoding, options))
    (hpath : RVAL2CSTR path = pure c_path) (henc : optCStr encoding = pure c_encoding)
    (hopt : optInt options = pure c_options) :
    ruby_xml_reader_new_file E argv self
      = constructorOutcome self "cannot create text reader for given XML file at path"
          (E.xmlReaderForFile c_path c_encoding c_options) := by
  unfold ruby_xml_reader_new_file
  rw [hargs]
  simp only [pure_bind, hpath, henc, hopt]
  cases E.xmlReaderForFile c_path c_encoding c_options <;> rfl

theorem new_io_outcome (E : Engine) (argv : List VALUE) (self : Klass)
    (io url encoding options : VALUE) (fptr : OpenFile) (c_url c_encoding : Option Bytes)
    (c_options : Int)
    (hargs : rb_scan_args_13 argv = pure (io, url, encoding, options))
    (hio : rb_obj_is_kind_of_io io = true) (hfptr : GetOpenFile io = pure fptr)
    (hread : rb_io_check_readable fptr = pure ())
    (hurl : optCStr url = pure c_url) (henc : optCStr encoding = pure c_encoding)
    (hopt : optInt options = pure c_options) :
    ruby_xml_reader_new_io E argv self
      = constructorOutcome self "cannot create text reader for given stream"
          (E.xmlReaderForIO (GetWriteFile fptr) c_url c_encoding c_options) := by
  unfold ruby_xml_reader_new_io
  rw [hargs]
  simp only [pure_bind, hio, hfptr, hread, hurl, henc, hopt, Bool.not_true]
  cases E.xmlReaderForIO (GetWriteFile fptr) c_url c_encoding c_options <;> rfl

theorem new_walker_outcome (E : Engine) (self : Klass) (doc : VALUE) (xdoc : Ptr)
    (hdoc : Data_Get_Struct doc = pure xdoc) :
    ruby_xml_reader_new_walker E self doc
      = constructorOutcome self "cannot create text reader for given document"
          (E.xmlReaderWalker xdoc) := by
  unfold ruby_xml_reader_new_walker
  rw [hdoc]
  simp only [pure_bind]
  cases E.xmlReaderWalker xdoc <;> rfl

theorem new_data_outcome (E : Engine) (argv : List VALUE) (self : Klass)
    (data url encoding options : VALUE) (c_data : Bytes) (c_url c_encoding : Option Bytes)
    (c_options : Int)
    (hargs : rb_scan_args_13 argv = pure (data, url, encoding, options))
    (hdata : RVAL2CSTR data = pure c_data)
    (hurl : optCStr url = pure c_url) (henc : optCStr encoding = pure c_encoding)
    (hopt : optInt options = pure c_options) :
    ruby_xml_reader_new_data E argv self
      = constructorOutcome self "cannot create text reader for given data"
          (E.xmlReaderForMemory c_data (toCInt (strlen c_data)) c_url c_encoding c_options) := by
  unfold ruby_xml_reader_new_data
  rw [hargs]
  simp only [pure_bind, hdata, hurl, henc, hopt]
  cases E.xmlReaderForMemory c_data (toCInt (strlen c_data)) c_url c_encoding c_options <;> rfl

theorem bind_eq_pure {α β : Type} (x : Result α) (f : α → Result β) (b : β)
    (h : x >>= f = pure b) : ∃ a, x = pure a ∧ f a = pure b := by
  cases x with
  | error e => cases h
  | ok a => exact ⟨a, rfl, h⟩

theorem new_file_returns (E : Engine) (argv : List VALUE) (self : Klass) (v : VALUE)
    (h : ruby_xml_reader_new_file E argv self = pure v) :
    ∃ c_path c_encoding c_options reader,
      E.xmlReaderForFile c_path c_encoding c_options = some reader ∧
      v = VALUE.data self (some .xmlFreeTextReader) (.reader reader) := by
  unfold ruby_xml_reader_new_file at h
  obtain ⟨⟨path, encoding, options⟩, _, h⟩ := bind_eq_pure _ _ _ h
  obtain ⟨c_path, _, h⟩ := bind_eq_pure _ _ _ h
  obtain ⟨c_encoding, _, h⟩ := bind_eq_pure _ _ _ h
  obtain ⟨c_options, _, h⟩ := bind_eq_pure _ _ _ h
  refine ⟨c_path, c_encoding, c_options, ?_⟩
  cases hE : E.xmlReaderForFile c_path c_encoding c_options with
  | none =>
    simp only [hE] at h
    obtain ⟨_, _, h⟩ := bind_eq_pure _ _ _ h
    cases h
  | some reader =>
    simp only [hE] at h
    cases h
    exact ⟨reader, rfl, rfl⟩

theorem new_io_returns (E : Engine) (argv : List VALUE) (self : Klass) (v : VALUE)
    (h : ruby_xml_reader_new_io E argv self = pure v) :
    ∃ f c_url c_encoding c_options reader,
      E.xmlReaderForIO f c_url c_encoding c_options = some reader ∧
      v = VALUE.data self (some .xmlFreeTextReader) (.reader reader) := by
  unfold ruby_xml_reader_new_io at h
  obtain ⟨⟨io, url, encoding, options⟩, _, h⟩ := bind_eq_pure _ _ _ h
  simp only at h
  split at h
  · cases h
  · obtain ⟨fptr, _, h⟩ := bind_eq_pure _ _ _ h
    obtain ⟨_, _, h⟩ := bind_eq_pure _ _ _ h
    obtain ⟨c_url, _, h⟩ := bind_eq_pure _ _ _ h
    obtain ⟨c_encoding, _, h⟩ := bind_eq_pure _ _ _ h
    obtain ⟨c_options, _, h⟩ := bind_eq_pure _ _ _ h
    refine ⟨GetWriteFile fptr, c_url, c_encoding, c_options, ?_⟩
    cases hE : E.xmlReaderForIO (GetWriteFile fptr) c_url c_encoding c_options with
    | none =>
      simp only [hE] at h
      cases h
    | some reader =>
      simp only [hE] at h
      cases h
      exact ⟨reader, rfl, rfl⟩

theorem new_walker_returns (E : Engine) (self : Klass) (doc v : VALUE)
    (h : ruby_xml_reader_new_walker E self doc = pure v) :
    ∃ xdoc reader, E.xmlReaderWalker xdoc = some reader ∧
      v = VALUE.data self (some .xmlFreeTextReader) (.reader reader) := by
  unfold ruby_xml_reader_new_walker at h
  obtain ⟨xdoc, _, h⟩ := bind_eq_pure _ _ _ h
  refine ⟨xdoc, ?_⟩
  cases hE : E.xmlReaderWalker xdoc with
  | none =>
    simp only [hE] at h
    cases h
  | some reader =>
    simp only [hE] at h
    cases h
    exact ⟨reader, rfl, rfl⟩

theorem new_data_returns (E : Engine) (argv : List VALUE) (self : Klass) (v : VALUE)
    (h : ruby_xml_reader_new_data E argv self = pure v) :
    ∃ c_data size c_url c_encoding c_options reader,
      E.xmlReaderForMemory c_data size c_url c_encoding c_options = some reader ∧
      v = VALUE.data self (some .xmlFreeTextReader) (.reader reader) := by
  unfold ruby_xml_reader_new_data at h
  obtain ⟨⟨data, url, encoding, options⟩, _, h⟩ := bind_eq_pure _ _ _ h
  obtain ⟨c_data, _, h⟩ := bind_eq_pure _ _ _ h
  obtain ⟨c_url, _, h⟩ := bind_eq_pure _ _ _ h
  obtain ⟨c_encoding, _, h⟩ := bind_eq_pure _ _ _ h
  obtain ⟨c_options, _, h⟩ := bind_eq_pure _ _ _ h
  refine ⟨c_data, toCInt (strlen c_data), c_url, c_encoding, c_options, ?_⟩
  cases hE : E.xmlReaderForMemory c_data (toCInt (strlen c_data)) c_url c_encoding
      c_options with
  | none =>
    simp only [hE] at h
    cases h
  | some reader =>
    simp only [hE] at h
    cases h
    exact ⟨reader, rfl, rfl⟩

/-- C9: for each construction entry point (`file`, `io`, `walker` or
`document`, `new` or `string`), any engine and any arguments: once the
arguments are converted and the engine is asked for a reader, the constructor
raises a `RuntimeError` when the engine produced no handle and otherwise
returns a Reader: the data object of the class the entry point was called on,
freed by `xmlFreeTextReader`, that wraps exactly the handle
(`constructorOutcome`); and whenever a constructor returns a value at all, it
is that Reader object for a handle the engine produced, so a failing engine
never yields a Reader. -/
theorem constructors_engine_outcome (E : Engine) (self : Klass) :
    (∀ msg, constructorOutcome self msg none = rb_raise .rb_eRuntimeError msg) ∧
    (∀ msg reader, constructorOutcome self msg (some reader)
        = pure (VALUE.data self (some .xmlFreeTextReader) (.reader reader)) ∧
      ruby_xml_text_reader_get (VALUE.data self (some .xmlFreeTextReader) (.reader reader)) = pure (.reader reader)) ∧
    (∀ argv path encoding options c_path c_encoding c_options,
      rb_scan_args_12 argv = pure (path, encoding, options) →
      RVAL2CSTR path = pure c_path → optCStr encoding = pure c_encoding →
      optInt options = pure c_options →
      ruby_xml_reader_new_file E argv self
        = constructorOutcome self "cannot create text reader for given XML file at path"
            (E.xmlReaderForFile c_path c_encoding c_options)) ∧
    (∀ argv v, ruby_xml_reader_new_file E argv self = pure v →
      ∃ c_path c_encoding c_options reader,
        E.xmlReaderForFile c_path c_encoding c_options = some reader ∧
        v = VALUE.data self (some .xmlFreeTextReader) (.reader reader)) ∧
    (∀ argv io url encoding options fptr c_url c_encoding c_options,
      rb_scan_args_13 argv = pure (io, url, encoding, options) →
      rb_obj_is_kind_of_io io = true → GetOpenFile io = pure fptr →
      rb_io_check_readable fptr = pure () →
      optCStr url = pure c_url → optCStr encoding = pure c_encoding →
      optInt options = pure c_options →
      ruby_xml_reader_new_io E argv self
        = constructorOutcome self "cannot create text reader for given stream"
            (E.xmlReaderForIO (GetWriteFile fptr) c_url c_encoding c_options)) ∧
    (∀ argv v, ruby_xml_reader_new_io E argv self = pure v →
      ∃ f c_url c_encoding c_options reader,
        E.xmlReaderForIO f c_url c_encoding c_options = some reader ∧
        v = VALUE.data self (some .xmlFreeTextReader) (.reader reader)) ∧
    (∀ doc xdoc, Data_Get_Struct doc = pure xdoc →
      ruby_xml_reader_new_walker E self doc
        = constructorOutcome self "cannot create text reader for given document"
            (E.xmlReaderWalker xdoc)) ∧
    (∀ doc v, ruby_xml_reader_new_walker E self doc = pure v →
      ∃ xdoc reader, E.xmlReaderWalker xdoc = some reader ∧
        v = VALUE.data self (some .xmlFreeTextReader) (.reader reader)) ∧
    (∀ argv data url encoding options c_data c_url c_encoding c_options,
      rb_scan_args_13 argv = pure (data, url, encoding, options) →
      RVAL2CSTR data = pure c_data →
      optCStr url = pure c_url → optCStr encoding = pure c_encoding →
      optInt options = pure c_options →
      ruby_xml_reader_new_data E argv self
        = constructorOutcome self "cannot create text reader for given data"
            (E.xmlReaderForMemory c_data (toCInt (strlen c_data)) c_url c_encoding
              c_options)) ∧
    (∀ argv v, ruby_xml_reader_new_data E argv self = pure v →
      ∃ c_data size c_url c_encoding c_options reader,
        E.xmlReaderForMemory c_data size c_url c_encoding c_options = some reader ∧
        v = VALUE.data self (some .xmlFreeTextReader) (.reader reader)) :=
  ⟨fun _ => rfl, fun _ _ => ⟨rfl, rfl⟩,
   fun argv path encoding options c_path c_encoding c_options h1 h2 h3 h4 =>
     new_file_outcome E argv self path encoding options c_path c_encoding c_options
       h1 h2 h3 h4,
   fun argv v h => new_file_returns E argv self v h,
   fun argv io url encoding options fptr c_url c_encoding c_options h1 h2 h3 h4 h5 h6 h7 =>
     new_io_outcome E argv self io url encoding options fptr c_url c_encoding c_options
       h1 h2 h3 h4 h5 h6 h7,
   fun argv v h => new_io_returns E argv self v h,
   fun doc xdoc h => new_walker_outcome E self doc xdoc h,
   fun doc v h => new_walker_returns E self doc v h,
   fun argv data url encoding options c_data c_url c_encoding c_options h1 h2 h3 h4 h5 =>
     new_data_outcome E argv self data url encoding options c_data c_url c_encoding
       c_options h1 h2 h3 h4 h5,
   fun argv v h => new_data_returns E argv self v h⟩

/-- Witness of C9, the scenario of the spec: `Reader.file("b.xml")` with an
engine that cannot reach that path raises `RuntimeError` and yields no Reader,
while `Reader.file("a.xml")` returns the object of class `XML::Reader`, freed
by `xmlFreeTextReader`, that wraps the handle of the engine. -/
theorem constructors_engine_outcome_witness :
    ruby_xml_reader_new_file exEngine [.string [98, 46, 120, 109, 108]] .cXMLReader
      = Except.error { klass := .rb_eRuntimeError,
                       msg := "cannot create text reader for given XML file at path" } ∧
    ruby_xml_reader_new_file exEngine [.string [97, 46, 120, 109, 108]] .cXMLReader
      = pure (.data .cXMLReader (some .xmlFreeTextReader) (.reader exReader)) :=
  ⟨(constructors_engine_outcome exEngine .cXMLReader).2.2.1
     [.string [98, 46, 120, 109, 108]] (.string [98, 46, 120, 109, 108]) .Qnil .Qnil
     [98, 46, 120, 109, 108] none 0 rfl rfl rfl rfl,
   (constructors_engine_outcome exEngine .cXMLReader).2.2.1
     [.string [97, 46, 120, 109, 108]] (.string [97, 46, 120, 109, 108]) .Qnil .Qnil
     [97, 46, 120, 109, 108] none 0 rfl rfl rfl rfl⟩

/-! ## Text queries -/

theorem CSTR2RVAL_faithful (x : Option Bytes) : faithfulText x (CSTR2RVAL (fun _ => x)) := by
  cases x with
  | none =>
    refine ⟨⟨fun _ => rfl, fun _ => rfl⟩, ?_⟩
    intro t ht
    cases ht
  | some buf =>
    have hval : CSTR2RVAL (fun _ => some buf) = pure (.string (cText buf)) := by
      simp only [CSTR2RVAL, Option.isNone_some, Bool.false_eq_true, if_false,
        rb_str_new2_some]
    refine ⟨⟨fun h => Option.noConfusion h, fun h => ?_⟩, ?_⟩
    · rw [hval] at h
      cases h
    · intro t ht
      cases ht
      exact hval

/-- C10: each of `name`, `local_name`, `prefix`, `namespace_uri` and `value`
is faithful to the engine on every reader: it returns `nil` exactly when the
engine reports no value, and when the engine reports a text, the empty one
included, it returns the String of exactly the bytes of the text (the bytes
before the terminating NUL of the C string), which is not `nil`; in particular
each query returns a value and never raises. -/
theorem text_queries_faithful (reader : xmlTextReader) :
    faithfulText (xmlTextReaderConstName reader) (ruby_xml_reader_name reader) ∧
    faithfulText (xmlTextReaderConstLocalName reader) (ruby_xml_reader_local_name reader) ∧
    faithfulText (xmlTextReaderConstPrefix reader) ( ruby_xml_reader_prefix reader) ∧
    faithfulText (xmlTextReaderConstNamespaceUri reader)
      (ruby_xml_reader_namespace_uri reader) ∧
    faithfulText (xmlTextReaderConstValue reader) (ruby_xml_reader_value reader) ∧
    (∀ engine result, faithfulText engine result →
      (∃ v, result = pure v) ∧
      (engine = some [] → result = pure (.string [])) ∧
      (∀ t, engine = some t → 0 ∉ t → result = pure (.string t))) := by
  refine ⟨CSTR2RVAL_faithful _, CSTR2RVAL_faithful _, CSTR2RVAL_faithful _,
    CSTR2RVAL_faithful _, CSTR2RVAL_faithful _, ?_⟩
  intro engine result h
  refine ⟨?_, ?_, ?_⟩
  · cases engine with
    | none => exact ⟨.Qnil, h.1.mp rfl⟩
    | some t => exact ⟨_, h.2 t rfl⟩
  · intro h0
    exact h.2 [] h0
  · intro t ht h0
    have := h.2 t ht
    rwa [cText_of_no_nul t h0] at this

/-- Witness of C10: on the element `a` the name is `"a"` and the value is
absent, hence `nil`; on a text node whose value is the empty text, `value` is
the empty String and not `nil`. -/
theorem text_queries_faithful_witness :
    ruby_xml_reader_name exReaderOnA = pure (.string [97]) ∧
    ruby_xml_reader_value exReaderOnA = pure .Qnil ∧
    ruby_xml_reader_value { exReaderOnA with node := some { exText with value := some [] } }
      = pure (.string []) :=
  ⟨(text_queries_faithful exReaderOnA).1.2 [97] rfl,
   (text_queries_faithful exReaderOnA).2.2.2.2.1.1.mp rfl,
   ((text_queries_faithful
      { exReaderOnA with node := some { exText with value := some [] } }).2.2.2.2.2
      _ _ (text_queries_faithful
        { exReaderOnA with node := some { exText with value := some [] } }).2.2.2.2.1).2.1
      rfl⟩

/-! ## Skipping to the next sibling -/

theorem next_sibling_code (engine : xmlTextReader → Int × xmlTextReader) (r : xmlTextReader) :
    ruby_xml_reader_next_sibling engine r = (.fixnum (engine r).1, (engine r).2) := rfl

/-- C11, as amended. Whatever the engine, `next_sibling` does not raise and has
no signal of its own: it returns the Fixnum of the int code of the engine, with
the reader the engine left, and its result differs from the -1 that `read`
returns for a traversal failure exactly when the code of the engine is not -1.
Under the assumption that the engine answers a reader that was not constructed
over a pre-parsed document with its error code -1 and leaves it where it is
(`hEngine`; libxml2 does so), `next_sibling` on such a reader returns -1 and
does not move it, and that is the very value `read` and `next_sibling` return
for a traversal failure. -/
theorem next_sibling_unsupported (engine : xmlTextReader → Int × xmlTextReader)
    (hEngine : ∀ r, r.walker = false → engine r = (-1, r))
    (reader : xmlTextReader) (h : reader.walker = false) :
    ruby_xml_reader_next_sibling engine reader = (.fixnum (-1), reader) ∧
    (∀ r, (xmlTextReaderRead r).1 = -1 →
      (ruby_xml_reader_read r).1 = (ruby_xml_reader_next_sibling engine reader).1) ∧
    (∀ r, (engine r).1 = -1 →
      (ruby_xml_reader_next_sibling engine r).1
        = (ruby_xml_reader_next_sibling engine reader).1) ∧
    (∀ (e : xmlTextReader → Int × xmlTextReader) (r : xmlTextReader),
      ruby_xml_reader_next_sibling e r = (.fixnum (e r).1, (e r).2)) ∧
    (∀ (e : xmlTextReader → Int × xmlTextReader) (r failed : xmlTextReader),
      (xmlTextReaderRead failed).1 = -1 →
      ((ruby_xml_reader_next_sibling e r).1 = (ruby_xml_reader_read failed).1 ↔
        (e r).1 = -1)) := by
  have hrun : ruby_xml_reader_next_sibling engine reader = (.fixnum (-1), reader) := by
    rw [next_sibling_code, hEngine reader h]
  rw [hrun]
  refine ⟨rfl, ?_, ?_, fun _ _ => rfl, ?_⟩
  · intro r hr
    show VALUE.fixnum (xmlTextReaderRead r).1 = .fixnum (-1)
    rw [hr]
  · intro r hr
    show VALUE.fixnum (engine r).1 = .fixnum (-1)
    rw [hr]
  · intro e r failed hf
    show VALUE.fixnum (e r).1 = VALUE.fixnum (xmlTextReaderRead failed).1 ↔ (e r).1 = -1
    rw [hf]
    exact ⟨fun h => VALUE.fixnum.inj h, fun h => congrArg VALUE.fixnum h⟩

/-- Witness of C11: the reader on the element `a` was made from a string; with
an engine that answers -1 and leaves the reader, `next_sibling` returns -1 and
the reader stays on `a`. -/
theorem next_sibling_unsupported_witness :
    exReaderOnA.walker = false ∧
    ruby_xml_reader_next_sibling (fun r => (-1, r)) exReaderOnA
      = (.fixnum (-1), exReaderOnA) :=
  ⟨rfl, (next_sibling_unsupported (fun r => (-1, r)) (fun _ _ => rfl) exReaderOnA rfl).1⟩

/-- Counterexample to C11 as stated, the answer of the engine written into the
statement: the reader on the element `a` was made from a string; when the
engine answers `next_sibling` on it with its error code -1 and leaves it, as
libxml2 does, `next_sibling` returns the Fixnum -1 and raises nothing, and
`read` returns the same Fixnum -1 when the engine fails on the next node: the
caller cannot tell the unsupported operation from a traversal failure. -/
theorem next_sibling_counterexample :
    exReaderOnA.walker = false ∧
    ruby_xml_reader_next_sibling (fun r => (-1, r)) exReaderOnA
      = (.fixnum (-1), exReaderOnA) ∧
    (xmlTextReaderRead { exReaderOnA with input := [none] }).1 = -1 ∧
    (ruby_xml_reader_read { exReaderOnA with input := [none] }).1
      = (ruby_xml_reader_next_sibling (fun r => (-1, r)) exReaderOnA).1 :=
  ⟨rfl, rfl, rfl, rfl⟩

/-! ## Boolean queries -/

/-- C12, the code at the failing input: before the first read, and after a
close, there is no current node and the engine reports the error code -1 for
`isEmptyElement` and `isNamespaceDeclaration`; `empty_element?` and
`namespace_declaration?` then return `true`, not `false`. On every reader each
of the six queries returns `true` exactly when the engine code is not 0, so
also for -1, and `false` exactly when it is 0. -/
theorem boolean_query_error_is_true :
    xmlTextReaderIsEmptyElement exReader = -1 ∧
    ruby_xml_reader_empty_element exReader = .Qtrue ∧
    xmlTextReaderIsNamespaceDecl exReader = -1 ∧
    ruby_xml_reader_namespace_declaration exReader = .Qtrue ∧
    (ruby_xml_reader_close exReaderOnA).2.mode = .XML_TEXTREADER_MODE_CLOSED ∧
    xmlTextReaderIsEmptyElement (ruby_xml_reader_close exReaderOnA).2 = -1 ∧
    ruby_xml_reader_empty_element (ruby_xml_reader_close exReaderOnA).2 = .Qtrue ∧
    ∀ reader : xmlTextReader,
      (ruby_xml_reader_has_attributes reader = .Qtrue ↔ xmlTextReaderHasAttributes reader ≠ 0) ∧
      (ruby_xml_reader_has_value reader = .Qtrue ↔ xmlTextReaderHasValue reader ≠ 0) ∧
      (ruby_xml_reader_default reader = .Qtrue ↔ xmlTextReaderIsDefault reader ≠ 0) ∧
      (ruby_xml_reader_namespace_declaration reader = .Qtrue
        ↔ xmlTextReaderIsNamespaceDecl reader ≠ 0) ∧
      (ruby_xml_reader_empty_element reader = .Qtrue
        ↔ xmlTextReaderIsEmptyElement reader ≠ 0) ∧
      (ruby_xml_reader_valid reader = .Qtrue ↔ xmlTextReaderIsValid reader ≠ 0) := by
  refine ⟨by decide, by decide, by decide, by decide, by decide, by decide, by decide, ?_⟩
  intro reader
  unfold ruby_xml_reader_has_attributes ruby_xml_reader_has_value ruby_xml_reader_default
    ruby_xml_reader_namespace_declaration ruby_xml_reader_empty_element ruby_xml_reader_valid
  refine ⟨?_, ?_, ?_, ?_, ?_, ?_⟩ <;> split <;> simp_all

/-! ## The stream handed to the engine by `Reader.io` -/

theorem new_io_rejects_non_io (E : Engine) (argv : List VALUE) (self : Klass)
    (io url encoding options : VALUE)
    (hargs : rb_scan_args_13 argv = pure (io, url, encoding, options))
    (hio : rb_obj_is_kind_of_io io = false) :
    ruby_xml_reader_new_io E argv self = rb_raise .rb_eTypeError "need an IO object" := by
  unfold ruby_xml_reader_new_io
  rw [hargs]
  simp only [pure_bind, hio, Bool.not_false, if_true]

/-- C13, the code at the failing input: for the readable duplex stream with
read handle 3 and write handle 4, `Reader.io` asks the engine, whichever it
is, for a reader on the handle 4, the write side, and not on the handle 3 that
`rb_io_check_readable` checked. In general the handle passed is `GetWriteFile`
of the stream; a non-IO argument is rejected with a `TypeError` whatever the
engine. -/
theorem new_io_hands_over_write_handle (E : Engine) (self : Klass) :
    rb_io_check_readable exDuplex = pure () ∧
    GetReadFile exDuplex = some 3 ∧
    GetWriteFile exDuplex = some 4 ∧
    ruby_xml_reader_new_io E [.file (some exDuplex)] self
      = constructorOutcome self "cannot create text reader for given stream"
          (E.xmlReaderForIO (some 4) none none 0) ∧
    (∀ fptr, GetOpenFile (.file (some fptr)) = pure fptr →
      rb_io_check_readable fptr = pure () →
      ruby_xml_reader_new_io E [.file (some fptr)] self
        = constructorOutcome self "cannot create text reader for given stream"
            (E.xmlReaderForIO (GetWriteFile fptr) none none 0)) ∧
    (∀ argv io url encoding options,
      rb_scan_args_13 argv = pure (io, url, encoding, options) →
      rb_obj_is_kind_of_io io = false →
      ruby_xml_reader_new_io E argv self = rb_raise .rb_eTypeError "need an IO object") := by
  refine ⟨rfl, rfl, rfl, ?_, ?_, ?_⟩
  · exact new_io_outcome E [.file (some exDuplex)] self (.file (some exDuplex)) .Qnil .Qnil
      .Qnil exDuplex none none 0 rfl rfl rfl rfl rfl rfl rfl
  · intro fptr hopen hread
    exact new_io_outcome E [.file (some fptr)] self (.file (some fptr)) .Qnil .Qnil .Qnil
      fptr none none 0 rfl rfl hopen hread rfl rfl rfl
  · intro argv io url encoding options hargs hio
    exact new_io_rejects_non_io E argv self io url encoding options hargs hio

/-! ## The buffer length handed to the engine by `Reader.new` -/

theorem strlen_of_no_nul (s : Bytes) (h : 0 ∉ s) : strlen s = s.length := by
  unfold strlen
  rw [cText_of_no_nul s h]

theorem strlen_lt_of_nul (s : Bytes) (h : 0 ∈ s) : s.length ≠ strlen s := by
  intro hlen
  have hsub : List.Sublist (cText s) s := List.takeWhile_sublist _
  have heq : cText s = s := hsub.eq_of_length hlen.symm
  unfold cText at heq
  rw [List.takeWhile_eq_self_iff] at heq
  have := heq 0 h
  simp at this

theorem toCInt_of_int (n : Int) (h0 : 0 ≤ n) (h1 : n ≤ INT_MAX) : toCInt n = n := by
  unfold toCInt
  unfold INT_MAX at h1
  omega

theorem paddedDocument_length (n : Nat) : (paddedDocument n).length = n + 4 := by
  unfold paddedDocument
  rw [List.length_append, List.length_replicate]
  exact Nat.add_comm 4 n

theorem paddedDocument_no_nul (n : Nat) : 0 ∉ paddedDocument n := by
  unfold paddedDocument
  intro h
  rcases List.mem_append.mp h with h | h
  · exact absurd h (by decide)
  · exact absurd (List.eq_of_mem_replicate h) (by decide)

theorem new_data_string (E : Engine) (self : Klass) (s : Bytes) (h : 0 ∉ s) :
    ruby_xml_reader_new_data E [.string s] self
      = constructorOutcome self "cannot create text reader for given data"
          (E.xmlReaderForMemory s (toCInt s.length) none none 0) := by
  have hd : RVAL2CSTR (.string s) = pure s := StringValueCStr_of_no_nul (.string s) s rfl h
  have := new_data_outcome E [.string s] self (.string s) .Qnil .Qnil .Qnil s none none 0
    rfl hd rfl rfl rfl
  rw [strlen_of_no_nul s h] at this
  exact this

theorem new_data_rejects_nul (E : Engine) (self : Klass) (s : Bytes) (rest : List VALUE)
    (h : 0 ∈ s) :
    ∃ msg, ruby_xml_reader_new_data E (.string s :: rest) self = rb_raise .rb_eArgError msg := by
  have hd : RVAL2CSTR (.string s) = rb_raise .rb_eArgError "string contains null byte" := by
    unfold RVAL2CSTR StringValueCStr
    simp only [rb_string_value, pure_bind]
    rw [if_pos (strlen_lt_of_nul s h)]
  unfold ruby_xml_reader_new_data
  rcases rest with _ | ⟨b, _ | ⟨c, _ | ⟨d, _ | ⟨e, rest⟩⟩⟩⟩
  · exact ⟨_, by simp only [rb_scan_args_13, pure_bind, hd]; rfl⟩
  · exact ⟨_, by simp only [rb_scan_args_13, pure_bind, hd]; rfl⟩
  · exact ⟨_, by simp only [rb_scan_args_13, pure_bind, hd]; rfl⟩
  · exact ⟨_, by simp only [rb_scan_args_13, pure_bind, hd]; rfl⟩
  · exact ⟨_, rfl⟩

/-- C14, the code at the failing input: the data `<a/>` followed by 2^32
blanks has 2^32 + 4 bytes and no NUL, so it reaches the engine, and the length
the engine receives is 4: the `size_t` of `strlen` is narrowed to the `int size`
parameter of `xmlReaderForMemory`. The rest of the claim holds: for data without
NUL of at most `INT_MAX` bytes the length passed is the full byte length, data
with an embedded NUL raises `ArgumentError` whatever the engine, and omitted or
`nil` url and encoding are passed as absent and options as 0. -/
theorem new_data_length_narrowed (E : Engine) (self : Klass) :
    (paddedDocument (2 ^ 32)).length = 2 ^ 32 + 4 ∧
    0 ∉ paddedDocument (2 ^ 32) ∧
    ruby_xml_reader_new_data E [.string (paddedDocument (2 ^ 32))] self
      = constructorOutcome self "cannot create text reader for given data"
          (E.xmlReaderForMemory (paddedDocument (2 ^ 32)) 4 none none 0) ∧
    (∀ s : Bytes, 0 ∉ s → (s.length : Int) ≤ INT_MAX →
      ruby_xml_reader_new_data E [.string s] self
        = constructorOutcome self "cannot create text reader for given data"
            (E.xmlReaderForMemory s s.length none none 0)) ∧
    (∀ (s : Bytes) (rest : List VALUE), 0 ∈ s →
      ∃ msg, ruby_xml_reader_new_data E (.string s :: rest) self
        = rb_raise .rb_eArgError msg) ∧
    (∀ data, rb_scan_args_13 [data] = pure (data, .Qnil, .Qnil, .Qnil)) ∧
    optCStr .Qnil = pure none ∧
    optInt .Qnil = pure 0 := by
  refine ⟨paddedDocument_length _, paddedDocument_no_nul _, ?_, ?_, ?_, fun _ => rfl, rfl, rfl⟩
  · have h := new_data_string E self (paddedDocument (2 ^ 32)) (paddedDocument_no_nul _)
    have hc : toCInt ((paddedDocument (2 ^ 32)).length : Int) = 4 := by
      rw [paddedDocument_length]
      unfold toCInt
      norm_num
    rw [hc] at h
    exact h
  · intro s h0 hlen
    have h := new_data_string E self s h0
    rw [toCInt_of_int _ (Int.natCast_nonneg _) hlen] at h
    exact h
  · intro s rest h0
    exact new_data_rejects_nul E self s rest h0

end LibxmlRuby
